import Mathlib

/-!
Verification of the supplier label generator (`src/supply.py`).

The file embeds the label-production pipeline of the source shallowly:

* `detect_columns` — column mapping (`detect_columns`, supply.py:128-153);
* `get_value_with_fallback` — value resolution (supply.py:155-165);
* `generate_barcode_image` / `draw_barcode` — barcode rendering policy
  (supply.py:173-220), with the success of the external Code128/PIL
  pipeline and of `canvas.drawImage` abstracted as boolean oracles;
* `create_single_label` — the per-page drawing-operation trace
  (supply.py:257-399);
* `create_label_pdf` — the page loop (supply.py:222-255);
* a Code128 encoder/decoder modelled from the spec for the round-trip
  property (the encoder itself lives in the external `python-barcode`
  library, not in the repository source).

Definitions come first, all theorems at the end of the file.
-/

namespace Supply

/-! ### Python string primitives

`charsPrefixOf` / `charsContains` model Python's substring operator
`needle in hay` (the empty needle is contained in every string);
`pyStrip` models `str.strip()` and `pyUpper` models `str.upper()`
(the data of this program is ASCII, where the Lean per-character
operations coincide with Python's). -/

def charsPrefixOf : List Char → List Char → Bool
  | [], _ => true
  | _ :: _, [] => false
  | a :: as, b :: bs => a == b && charsPrefixOf as bs

def charsContains (needle : List Char) : List Char → Bool
  | [] => charsPrefixOf needle []
  | b :: bs => charsPrefixOf needle (b :: bs) || charsContains needle bs

/-- Python `needle in hay` on strings. -/
def pyIn (needle hay : String) : Bool :=
  charsContains needle.data hay.data

/-- Python `s.upper()`. -/
def pyUpper (s : String) : String := ⟨s.data.map Char.toUpper⟩

/-- Python `s.strip()`: drop whitespace from both ends. -/
def pyStrip (s : String) : String :=
  ⟨((s.data.dropWhile Char.isWhitespace).reverse.dropWhile
      Char.isWhitespace).reverse⟩

/-! ### ColumnMapper (`detect_columns`, supply.py:128-153) -/

/-- The canonical fields of the label template (keys of the `mappings`
dict at supply.py:130-140). -/
inductive Field where
  | document_date | asn_no | part_no | description | quantity
  | net_weight | gross_weight | shipper_id | shipper_name
deriving DecidableEq

/-- The keyword lists of the `mappings` dict, supply.py:131-139,
transcribed verbatim (letter case included). -/
def mappingKeywords : Field → List String
  | .document_date =>
      ["DATE", "DOC_DATE", "DOCUMENT_DATE", "SHIP_DATE", "DOCUMENT DATE",
       "Document Date"]
  | .asn_no =>
      ["ASN", "ASN_NO", "ASN NO", "ADVANCE_SHIPMENT", "ASN NUMBER",
       "ASN No.", "ASN No"]
  | .part_no =>
      ["PART", "PART_NO", "PART NO", "ITEM", "PART NUMBER", "PartNo"]
  | .description =>
      ["DESC", "DESCRIPTION", "ITEM_DESC", "PART_DESC", "ITEM DESCRIPTION",
       "Part Description", "Description"]
  | .quantity =>
      ["QTY", "QUANTITY", "QTY_SHIPPED", "SHIPPED QTY", "Quantity", "Qty"]
  | .net_weight =>
      ["NET_WT", "NET_WEIGHT", "NET WEIGHT", "Net Weight(KG)", "NET WT",
       "Net Wt.", "Net Wt", "NetWt"]
  | .gross_weight =>
      ["GROSS_WT", "GROSS_WEIGHT", "GROSS WEIGHT", "Gross Weight(KG)",
       "GROSS WT", "GROSS WT.", "Gross Wt.", "Gross Wt", "Gross wt."]
  | .shipper_id =>
      ["SHIPPER_PART", "VENDOR_PART", "SUPPLIER_PART", "VENDOR PART",
       "SHIPPER PART", "Shipper ID", "ID", "id", "Shipper_ID",
       "Delivery Partner ID", "SHIPPER_ID"]
  | .shipper_name =>
      ["SHIPPER", "VENDOR", "SUPPLIER", "FROM", "VENDOR NAME",
       "SUPPLIER NAME", "SHIPPER NAME", "Shipper Name", "shipper name",
       "SHIPPER_NAME"]

/-- The inner loop of `detect_columns` (supply.py:144-149): scan the
headers left to right, keep the first one whose upper-cased form contains
any keyword (`found = header; break`). -/
def findHeaderFor (keywords : List String) : List String → Option String
  | [] => none
  | header :: rest =>
      let headerUpper := pyUpper header
      if keywords.any (fun kw => pyIn kw headerUpper) then some header
      else findHeaderFor keywords rest

/-- `detect_columns` (supply.py:128-153), viewed per field: the Python
builds a dict and omits the key when nothing was found; `.get` on that
dict is `Option`. -/
def detect_columns (headers : List String) (f : Field) : Option String :=
  findHeaderFor (mappingKeywords f) headers

/-- The selection rule in the spec's words ("for each canonical field,
scan candidate keywords in the order given; for each keyword, scan
headers in their original left-to-right order"): keyword-major
precedence, for comparison with `detect_columns`. -/
def keywordMajorFind (headers : List String) : List String → Option String
  | [] => none
  | kw :: rest =>
      match headers.find? (fun h => pyIn kw (pyUpper h)) with
      | some h => some h
      | none => keywordMajorFind headers rest

/-! ### ValueResolver (`get_value_with_fallback`, supply.py:155-165) -/

/-- A scalar cell of the parsed table. `na` is a value for which
`pd.notna` is false; `timestamp` is a `pd.Timestamp` (calendar date);
`text` is any other scalar, carried as its Python `str()` form (the
source applies `str()` before any other use). -/
inductive CellValue where
  | na
  | timestamp (day month year : Nat)
  | text (s : String)
deriving DecidableEq

/-- A row of the table: header name to cell; `none` means the column is
absent from the row (`column_name in row` false). -/
abbrev Row := String → Option CellValue

/-- Two-digit zero padding as done by `strftime`. -/
def pad2 (n : Nat) : String := if n < 10 then "0" ++ toString n else toString n

/-- `value.strftime('%d-%m-%y')` for a timestamp (supply.py:161). -/
def fmtDDMMYY (day month year : Nat) : String :=
  pad2 day ++ "-" ++ pad2 month ++ "-" ++ pad2 (year % 100)

/-- `get_value_with_fallback` (supply.py:155-165).  Python's
`if not column_name` is true both for `None` and for the empty string,
hence the two default branches; `pd.notna` failing and the column being
absent take the same final `return`. -/
def get_value_with_fallback (row : Row) (columnName : Option String)
    (defaultValue : String) (allowBlank : Bool := false) : String :=
  match columnName with
  | none => if allowBlank then "" else defaultValue
  | some cn =>
    if cn = "" then (if allowBlank then "" else defaultValue)
    else
      match row cn with
      | some (.timestamp d m y) => fmtDDMMYY d m y
      | some (.text s) =>
          let valueStr := pyStrip s
          if valueStr ≠ "" then valueStr
          else if allowBlank then "" else defaultValue
      | some .na => if allowBlank then "" else defaultValue
      | none => if allowBlank then "" else defaultValue

/-- An example row used by witnesses: quantity text `" 5 "`, a date
column, an NA column, an all-blank text column. -/
def exampleRow : Row := fun cn =>
  if cn = "Qty" then some (.text " 5 ")
  else if cn = "Ship Date" then some (.timestamp 11 7 2024)
  else if cn = "Net Wt" then some .na
  else if cn = "Desc" then some (.text "   ")
  else none

/-! ### Decimal digits, for the injectivity of `Nat.repr`

The default part number is the f-string `f'PART{index + 1}'`
(supply.py:242); to show distinct rows get distinct defaults we prove
`Nat.repr` injective via an explicit digit decomposition. -/

/-- Decimal digits of `n`, most significant first. -/
def natDigits (n : Nat) : List Nat :=
  if n < 10 then [n] else natDigits (n / 10) ++ [n % 10]
decreasing_by exact Nat.div_lt_self (by omega) (by omega)

/-- Decimal value of a digit list (most significant first). -/
def ofDigits (ds : List Nat) : Nat := ds.foldl (fun a d => 10 * a + d) 0

/-! ### Row resolution (`create_label_pdf`, supply.py:240-248) -/

/-- The nine display strings resolved for one row. -/
structure ResolvedRow where
  document_date : String
  asn_no : String
  part_no : String
  description : String
  quantity : String
  net_weight : String
  gross_weight : String
  shipper_id : String
  shipper_name : String
deriving DecidableEq

/-- The per-row value extraction of `create_label_pdf`
(supply.py:240-248); `index` is the 0-based row index yielded by
`data.iterrows()`.  Defaults and blank policy transcribed verbatim:
only `asn_no` passes `allow_blank=True`, and only `part_no` has a
row-index-dependent default. -/
def resolveRowValues (cmap : Field → Option String) (index : Nat)
    (row : Row) : ResolvedRow where
  document_date := get_value_with_fallback row (cmap .document_date) "11-07-24"
  asn_no := get_value_with_fallback row (cmap .asn_no) "" true
  part_no := get_value_with_fallback row (cmap .part_no)
      ("PART" ++ toString (index + 1))
  description := get_value_with_fallback row (cmap .description) "Description"
  quantity := get_value_with_fallback row (cmap .quantity) "1"
  net_weight := get_value_with_fallback row (cmap .net_weight) "480"
  gross_weight := get_value_with_fallback row (cmap .gross_weight) "500"
  shipper_id := get_value_with_fallback row (cmap .shipper_id) "V12345"
  shipper_name := get_value_with_fallback row (cmap .shipper_name)
      "Shipper Name"

/-- The part-number field is unmapped, or the row has no usable value
under the mapped header (header empty, column absent, or NA). -/
def PartNoMissing (cmap : Field → Option String) (row : Row) : Prop :=
  cmap .part_no = none ∨
    ∃ cn, cmap .part_no = some cn ∧
      (cn = "" ∨ row cn = none ∨ row cn = some .na)

/-! ### LabelRenderer (supply.py:167-220 and 257-399)

A page is a list of drawing operations recorded in source order.
Coordinates are exact rationals; `cm` is reportlab's centimetre unit
(72/2.54 points — only its positivity and linearity matter to any
claim).  A `draw_centered_text` call (supply.py:167-171) is recorded as
one `textCentered` operation: the concrete x-offset it computes depends
on reportlab's font-metric table, which is external; `stringAt` is a
direct `canvas.drawString`, and `image` a `canvas.drawImage` of the
barcode raster generated for the given data.  The success of the
external Code128/PIL encoding pipeline (supply.py:177-198) and of
`canvas.drawImage` (supply.py:212) is abstracted as the oracles
`encodeOk` and `drawOk`. -/

def cm : Rat := 3600 / 127

inductive DrawOp where
  | setLineWidth (w : Rat)
  | setFont (fontName : String) (size : Rat)
  | rect (x y w h : Rat)
  | textCentered (s : String) (x y width : Rat)
  | stringAt (s : String) (x y : Rat)
  | image (data : String) (x y w h : Rat)
deriving DecidableEq

abbrev Page := List DrawOp

/-- `generate_barcode_image` (supply.py:173-201): `None` for blank data;
for non-blank data the Code128 + PIL pipeline either yields a temporary
image file (modelled by the data itself as an opaque handle) or raises,
which the `except` turns into `None`. -/
def generate_barcode_image (encodeOk : String → Bool) (data : String) :
    Option String :=
  if data = "" ∨ pyStrip data = "" then none
  else if encodeOk data then some data else none

/-- `draw_barcode` (supply.py:203-220): nothing for blank data; if an
image file was produced, draw it, falling back to centered literal text
only when `drawImage` itself fails; if no file was produced
(generation failed), the `else: pass` draws nothing. -/
def draw_barcode (encodeOk drawOk : String → Bool) (data : String)
    (x y width_cm height_cm : Rat) : List DrawOp :=
  if data = "" ∨ pyStrip data = "" then []
  else
    match generate_barcode_image encodeOk data with
    | some file =>
        if drawOk file then [.image file x y width_cm height_cm]
        else [.textCentered data x (y + height_cm / 2) width_cm]
    | none => []

/-- Python `s[:n]`. -/
def pySlice (s : String) (n : Nat) : String := ⟨s.data.take n⟩

/-- Description truncation inside `create_single_label`
(supply.py:337-338). -/
def truncateDescription (description : String) : String :=
  if description.length > 25 then pySlice description 22 ++ "..."
  else description

/-- Shipper-name truncation inside `create_single_label`
(supply.py:396-398). -/
def truncateShipperName (shipper_name : String) : String :=
  if shipper_name.length > 15 then pySlice shipper_name 12 ++ "..."
  else shipper_name

/-- Row 1 of the label (supply.py:274-298): organisation header on two
lines, date label, date value. -/
def row1Ops (document_date : String) (current_y : Rat) : List DrawOp :=
  let row_height : Rat := 1.0 * cm
  let eka_col_width : Rat := 5.5 * cm
  let doc_header_width : Rat := 1.4 * cm
  let doc_value_width : Rat := 2.3 * cm
  let center_y := current_y + row_height / 2
  [.setLineWidth 1.0,
   .setFont "Helvetica" 11,
   .rect (0.5 * cm) current_y eka_col_width row_height,
   .rect (0.5 * cm + eka_col_width) current_y doc_header_width row_height,
   .rect (0.5 * cm + eka_col_width + doc_header_width) current_y
     doc_value_width row_height,
   .setFont "Helvetica-Bold" 11,
   .textCentered "Pinnacle Mobility Solutions" (0.5 * cm)
     (center_y + 0.15 * cm) eka_col_width,
   .textCentered "Pvt. Ltd." (0.5 * cm) (center_y - 0.25 * cm) eka_col_width,
   .setFont "Helvetica-Bold" 11,
   .textCentered "Date" (0.5 * cm + eka_col_width)
     (current_y + row_height / 2 - 0.15 * cm) doc_header_width,
   .setFont "Helvetica" 11,
   .textCentered document_date (0.5 * cm + eka_col_width + doc_header_width)
     (current_y + row_height / 2 - 0.15 * cm) doc_value_width]

/-- Row 2 of the label (supply.py:300-313): ASN label, then value and
barcode only when the ASN is non-blank (`if asn_no and asn_no.strip()`). -/
def asnRowOps (encodeOk drawOk : String → Bool) (asn_no : String)
    (current_y : Rat) : List DrawOp :=
  let row_height : Rat := 1.0 * cm
  let col1_width : Rat := 2.5 * cm
  let col2_width : Rat := 3.0 * cm
  let col3_width : Rat := 3.7 * cm
  [.rect (0.5 * cm) current_y col1_width row_height,
   .rect (0.5 * cm + col1_width) current_y col2_width row_height,
   .rect (0.5 * cm + col1_width + col2_width) current_y col3_width row_height,
   .setFont "Helvetica-Bold" 11,
   .textCentered "ASN No" (0.5 * cm)
     (current_y + row_height / 2 - 0.15 * cm) col1_width,
   .setFont "Helvetica" 11] ++
  (if asn_no ≠ "" ∧ pyStrip asn_no ≠ "" then
    [.textCentered asn_no (0.5 * cm + col1_width)
      (current_y + row_height / 2 - 0.15 * cm) col2_width] ++
    draw_barcode encodeOk drawOk asn_no
      (0.5 * cm + col1_width + col2_width + 0.1 * cm) (current_y + 0.1 * cm)
      (col3_width - 0.2 * cm) (row_height - 0.2 * cm)
  else [])

/-- Row 3 of the label (supply.py:315-326): part number, always with
value text and barcode. -/
def partRowOps (encodeOk drawOk : String → Bool) (part_no : String)
    (current_y : Rat) : List DrawOp :=
  let row_height : Rat := 1.0 * cm
  let col1_width : Rat := 2.5 * cm
  let col2_width : Rat := 3.0 * cm
  let col3_width : Rat := 3.7 * cm
  [.rect (0.5 * cm) current_y col1_width row_height,
   .rect (0.5 * cm + col1_width) current_y col2_width row_height,
   .rect (0.5 * cm + col1_width + col2_width) current_y col3_width row_height,
   .setFont "Helvetica-Bold" 11,
   .textCentered "Part No" (0.5 * cm)
     (current_y + row_height / 2 - 0.15 * cm) col1_width,
   .setFont "Helvetica" 11,
   .textCentered part_no (0.5 * cm + col1_width)
     (current_y + row_height / 2 - 0.15 * cm) col2_width] ++
  draw_barcode encodeOk drawOk part_no
    (0.5 * cm + col1_width + col2_width + 0.1 * cm) (current_y + 0.1 * cm)
    (col3_width - 0.2 * cm) (row_height - 0.2 * cm)

/-- Row 4 of the label (supply.py:328-339): description, truncated,
drawn left-aligned by a plain `drawString`. -/
def descRowOps (description : String) (current_y : Rat) : List DrawOp :=
  let row_height : Rat := 1.0 * cm
  let col1_width : Rat := 2.5 * cm
  let col2_width : Rat := 3.0 * cm
  let col3_width : Rat := 3.7 * cm
  [.rect (0.5 * cm) current_y col1_width row_height,
   .rect (0.5 * cm + col1_width) current_y (col2_width + col3_width)
     row_height,
   .setFont "Helvetica-Bold" 11,
   .textCentered "Description" (0.5 * cm)
     (current_y + row_height / 2 - 0.15 * cm) col1_width,
   .setFont "Helvetica" 11,
   .stringAt (truncateDescription description) (0.5 * cm + col1_width + 0.2 * cm)
     (current_y + row_height / 2 - 0.15 * cm)]

/-- Row 5 of the label (supply.py:341-352): quantity with barcode. -/
def qtyRowOps (encodeOk drawOk : String → Bool) (quantity : String)
    (current_y : Rat) : List DrawOp :=
  let row_height : Rat := 1.0 * cm
  let col1_width : Rat := 2.5 * cm
  let col2_width : Rat := 3.0 * cm
  let col3_width : Rat := 3.7 * cm
  [.rect (0.5 * cm) current_y col1_width row_height,
   .rect (0.5 * cm + col1_width) current_y col2_width row_height,
   .rect (0.5 * cm + col1_width + col2_width) current_y col3_width row_height,
   .setFont "Helvetica-Bold" 11,
   .textCentered "Quantity" (0.5 * cm)
     (current_y + row_height / 2 - 0.15 * cm) col1_width,
   .setFont "Helvetica" 11,
   .textCentered quantity (0.5 * cm + col1_width)
     (current_y + row_height / 2 - 0.15 * cm) col2_width] ++
  draw_barcode encodeOk drawOk quantity
    (0.5 * cm + col1_width + col2_width + 0.1 * cm) (current_y + 0.1 * cm)
    (col3_width - 0.2 * cm) (row_height - 0.2 * cm)

/-- Row 6 of the label (supply.py:354-371): net and gross weight. -/
def weightRowOps (net_weight gross_weight : String) (current_y : Rat) :
    List DrawOp :=
  let row_height : Rat := 1.0 * cm
  let header_width : Rat := 2.5 * cm
  let value_width : Rat := 2.1 * cm
  [.rect (0.5 * cm) current_y header_width row_height,
   .rect (0.5 * cm + header_width) current_y value_width row_height,
   .rect (0.5 * cm + header_width + value_width) current_y header_width
     row_height,
   .rect (0.5 * cm + header_width * 2 + value_width) current_y value_width
     row_height,
   .setFont "Helvetica-Bold" 11,
   .textCentered "Net Wt" (0.5 * cm)
     (current_y + row_height / 2 - 0.15 * cm) header_width,
   .setFont "Helvetica" 11,
   .textCentered net_weight (0.5 * cm + header_width)
     (current_y + row_height / 2 - 0.15 * cm) value_width,
   .setFont "Helvetica-Bold" 11,
   .textCentered "Gross Wt" (0.5 * cm + header_width + value_width)
     (current_y + row_height / 2 - 0.15 * cm) header_width,
   .setFont "Helvetica" 11,
   .textCentered gross_weight (0.5 * cm + header_width * 2 + value_width)
     (current_y + row_height / 2 - 0.15 * cm) value_width]

/-- Row 7 of the label (supply.py:373-399): shipper label, shipper id,
shipper name (truncated). -/
def shipperRowOps (shipper_id shipper_name : String) (current_y : Rat) :
    List DrawOp :=
  let row7_height : Rat := 1.0 * cm
  let shipper_label_width : Rat := 2.5 * cm
  let shipper_id_width : Rat := 2.5 * cm
  let shipper_name_width : Rat := 4.2 * cm
  [.rect (0.5 * cm) current_y shipper_label_width row7_height,
   .rect (0.5 * cm + shipper_label_width) current_y shipper_id_width
     row7_height,
   .rect (0.5 * cm + shipper_label_width + shipper_id_width) current_y
     shipper_name_width row7_height,
   .setFont "Helvetica-Bold" 11,
   .textCentered "Shipper" (0.5 * cm)
     (current_y + row7_height / 2 - 0.15 * cm) shipper_label_width,
   .setFont "Helvetica" 11,
   .textCentered shipper_id (0.5 * cm + shipper_label_width)
     (current_y + row7_height / 2 - 0.15 * cm) shipper_id_width,
   .textCentered (truncateShipperName shipper_name)
     (0.5 * cm + shipper_label_width + shipper_id_width)
     (current_y + row7_height / 2 - 0.15 * cm) shipper_name_width]

/-- `create_single_label` (supply.py:257-399): the seven rows drawn top
to bottom, the vertical cursor decrementing by one row height per row. -/
def create_single_label (encodeOk drawOk : String → Bool)
    (document_date asn_no part_no description quantity net_weight
     gross_weight shipper_id shipper_name : String)
    (page_width page_height : Rat) : List DrawOp :=
  let row_height : Rat := 1.0 * cm
  let start_y := page_height - 0.5 * cm - row_height
  let y1 := start_y
  let y2 := y1 - row_height
  let y3 := y2 - row_height
  let y4 := y3 - row_height
  let y5 := y4 - row_height
  let y6 := y5 - row_height
  let y7 := y6 - row_height
  row1Ops document_date y1 ++
  asnRowOps encodeOk drawOk asn_no y2 ++
  partRowOps encodeOk drawOk part_no y3 ++
  descRowOps description y4 ++
  qtyRowOps encodeOk drawOk quantity y5 ++
  weightRowOps net_weight gross_weight y6 ++
  shipperRowOps shipper_id shipper_name y7

/-! ### LabelDocumentAssembler (`create_label_pdf`, supply.py:222-255) -/

/-- The reportlab canvas: finished pages plus the page being drawn. -/
structure CanvasState where
  pages : List Page
  current : Page
deriving DecidableEq

/-- `canvas.showPage()`: finish the current page and start a blank one. -/
def showPage (st : CanvasState) : CanvasState :=
  ⟨st.pages ++ [st.current], []⟩

/-- Drawing operations appended to the current page. -/
def drawOnCanvas (st : CanvasState) (ops : List DrawOp) : CanvasState :=
  ⟨st.pages, st.current ++ ops⟩

/-- `canvas.save()`: reportlab flushes the current page when it has
content, then serialises the finished pages. -/
def saveCanvas (st : CanvasState) : List Page :=
  if st.current = [] then st.pages else st.pages ++ [st.current]

/-- The operations drawn for the row at `index` (supply.py:239-252):
resolve the nine values, then `create_single_label`. -/
def pageOpsFor (encodeOk drawOk : String → Bool)
    (cmap : Field → Option String) (index : Nat) (row : Row)
    (page_width page_height : Rat) : List DrawOp :=
  let v := resolveRowValues cmap index row
  create_single_label encodeOk drawOk v.document_date v.asn_no v.part_no
    v.description v.quantity v.net_weight v.gross_weight v.shipper_id
    v.shipper_name page_width page_height

/-- One iteration of the `for index, row in data.iterrows()` loop
(supply.py:235-252): a page break before every row but the first, then
the row's label. -/
def labelStep (encodeOk drawOk : String → Bool)
    (cmap : Field → Option String) (page_width page_height : Rat)
    (st : CanvasState) (x : Nat × Row) : CanvasState :=
  drawOnCanvas (if x.1 > 0 then showPage st else st)
    (pageOpsFor encodeOk drawOk cmap x.1 x.2 page_width page_height)

/-- `create_label_pdf` (supply.py:222-255): 10cm × 15cm pages, the row
loop over the enumerated table (`iterrows` yields 0-based positions for
a freshly parsed table), then `c.save()`. -/
def create_label_pdf (encodeOk drawOk : String → Bool)
    (cmap : Field → Option String) (rows : List Row) : List Page :=
  let page_width := 10 * cm
  let page_height := 15 * cm
  saveCanvas (rows.enum.foldl
    (labelStep encodeOk drawOk cmap page_width page_height) ⟨[], []⟩)

/-! ### BarcodeEncoder round trip (claim C9)

Modelled from the spec: the Code128 symbol generation itself lives in
the external `python-barcode` library invoked at supply.py:181-190, not
in the repository source.  Following the spec's words ("a standard
alphanumeric linear symbology with a checksum character appended"),
`encode128` produces the Code128 module-width sequence in code set B:
start symbol, one symbol per character, the weighted-sum checksum
symbol, stop pattern; `decode128` is a standard linear-symbology
decoder over the same public width table.  `code128Widths` lists the
standard widths of symbol values 0-106. -/

def code128Widths : List (List Nat) :=
  [[2, 1, 2, 2, 2, 2], [2, 2, 2, 1, 2, 2], [2, 2, 2, 2, 2, 1], [1, 2, 1, 2, 2, 3], [1, 2, 1, 3, 2, 2],
   [1, 3, 1, 2, 2, 2], [1, 2, 2, 2, 1, 3], [1, 2, 2, 3, 1, 2], [1, 3, 2, 2, 1, 2], [2, 2, 1, 2, 1, 3],
   [2, 2, 1, 3, 1, 2], [2, 3, 1, 2, 1, 2], [1, 1, 2, 2, 3, 2], [1, 2, 2, 1, 3, 2], [1, 2, 2, 2, 3, 1],
   [1, 1, 3, 2, 2, 2], [1, 2, 3, 1, 2, 2], [1, 2, 3, 2, 2, 1], [2, 2, 3, 2, 1, 1], [2, 2, 1, 1, 3, 2],
   [2, 2, 1, 2, 3, 1], [2, 1, 3, 2, 1, 2], [2, 2, 3, 1, 1, 2], [3, 1, 2, 1, 3, 1], [3, 1, 1, 2, 2, 2],
   [3, 2, 1, 1, 2, 2], [3, 2, 1, 2, 2, 1], [3, 1, 2, 2, 1, 2], [3, 2, 2, 1, 1, 2], [3, 2, 2, 2, 1, 1],
   [2, 1, 2, 1, 2, 3], [2, 1, 2, 3, 2, 1], [2, 3, 2, 1, 2, 1], [1, 1, 1, 3, 2, 3], [1, 3, 1, 1, 2, 3],
   [1, 3, 1, 3, 2, 1], [1, 1, 2, 3, 1, 3], [1, 3, 2, 1, 1, 3], [1, 3, 2, 3, 1, 1], [2, 1, 1, 3, 1, 3],
   [2, 3, 1, 1, 1, 3], [2, 3, 1, 3, 1, 1], [1, 1, 2, 1, 3, 3], [1, 1, 2, 3, 3, 1], [1, 3, 2, 1, 3, 1],
   [1, 1, 3, 1, 2, 3], [1, 1, 3, 3, 2, 1], [1, 3, 3, 1, 2, 1], [3, 1, 3, 1, 2, 1], [2, 1, 1, 3, 3, 1],
   [2, 3, 1, 1, 3, 1], [2, 1, 3, 1, 1, 3], [2, 1, 3, 3, 1, 1], [2, 1, 3, 1, 3, 1], [3, 1, 1, 1, 2, 3],
   [3, 1, 1, 3, 2, 1], [3, 3, 1, 1, 2, 1], [3, 1, 2, 1, 1, 3], [3, 1, 2, 3, 1, 1], [3, 3, 2, 1, 1, 1],
   [3, 1, 4, 1, 1, 1], [2, 2, 1, 4, 1, 1], [4, 3, 1, 1, 1, 1], [1, 1, 1, 2, 2, 4], [1, 1, 1, 4, 2, 2],
   [1, 2, 1, 1, 2, 4], [1, 2, 1, 4, 2, 1], [1, 4, 1, 1, 2, 2], [1, 4, 1, 2, 2, 1], [1, 1, 2, 2, 1, 4],
   [1, 1, 2, 4, 1, 2], [1, 2, 2, 1, 1, 4], [1, 2, 2, 4, 1, 1], [1, 4, 2, 1, 1, 2], [1, 4, 2, 2, 1, 1],
   [2, 4, 1, 2, 1, 1], [2, 2, 1, 1, 1, 4], [4, 1, 3, 1, 1, 1], [2, 4, 1, 1, 1, 2], [1, 3, 4, 1, 1, 1],
   [1, 1, 1, 2, 4, 2], [1, 2, 1, 1, 4, 2], [1, 2, 1, 2, 4, 1], [1, 1, 4, 2, 1, 2], [1, 2, 4, 1, 1, 2],
   [1, 2, 4, 2, 1, 1], [4, 1, 1, 2, 1, 2], [4, 2, 1, 1, 1, 2], [4, 2, 1, 2, 1, 1], [2, 1, 2, 1, 4, 1],
   [2, 1, 4, 1, 2, 1], [4, 1, 2, 1, 2, 1], [1, 1, 1, 1, 4, 3], [1, 1, 1, 3, 4, 1], [1, 3, 1, 1, 4, 1],
   [1, 1, 4, 1, 1, 3], [1, 1, 4, 3, 1, 1], [4, 1, 1, 1, 1, 3], [4, 1, 1, 3, 1, 1], [1, 1, 3, 1, 4, 1],
   [1, 1, 4, 1, 3, 1], [3, 1, 1, 1, 4, 1], [4, 1, 1, 1, 3, 1], [2, 1, 1, 4, 1, 2], [2, 1, 1, 2, 1, 4],
   [2, 1, 1, 2, 3, 2], [2, 3, 3, 1, 1, 1]]

def code128StopPat : List Nat := [2, 3, 3, 1, 1, 1, 2]

def symPat (v : Nat) : List Nat := code128Widths.getD v []

def symVal (g : List Nat) : Option Nat :=
  code128Widths.findIdx? (fun p => p == g)

def charToVal (c : Char) : Nat := c.toNat - 32

def valToChar (v : Nat) : Char := Char.ofNat (v + 32)

def code128Checksum (vals : List Nat) : Nat :=
  (104 + (vals.enum.map (fun x => (x.1 + 1) * x.2)).sum) % 103

def encode128 (s : String) : List Nat :=
  let vals := s.data.map charToVal
  symPat 104 ++ (vals.map symPat).flatten
    ++ symPat (code128Checksum vals) ++ code128StopPat

def parseSyms : Nat → List Nat → Option (List Nat)
  | 0, _ => none
  | fuel + 1, ms =>
      if ms = code128StopPat then some []
      else
        match symVal (ms.take 6) with
        | some v =>
            match parseSyms fuel (ms.drop 6) with
            | some vs => some (v :: vs)
            | none => none
        | none => none

def decodeVals (vs : List Nat) : Option String :=
  match vs.getLast? with
  | some ck =>
      if code128Checksum vs.dropLast = ck then
        some (String.mk (vs.dropLast.map valToChar))
      else none
  | none => none

def decode128 (ms : List Nat) : Option String :=
  if ms.take 6 = symPat 104 then
    match parseSyms ms.length (ms.drop 6) with
    | some vs => decodeVals vs
    | none => none
  else none

end Supply

namespace Supply

/-! ## Theorems -/

/-! ### Characterisation lemmas for the mapper -/

theorem findHeaderFor_eq_find? (keywords : List String) :
    ∀ headers : List String,
      findHeaderFor keywords headers =
        headers.find? (fun h => keywords.any (fun kw => pyIn kw (pyUpper h)))
  | [] => rfl
  | header :: rest => by
      simp only [findHeaderFor, List.find?]
      by_cases h : keywords.any (fun kw => pyIn kw (pyUpper header))
      · simp [h]
      · simp [h, findHeaderFor_eq_find? keywords rest]

theorem findHeaderFor_mem (keywords : List String) (headers : List String)
    (hd : String) (h : findHeaderFor keywords headers = some hd) :
    hd ∈ headers := by
  rw [findHeaderFor_eq_find?] at h
  exact List.mem_of_find?_eq_some h

theorem findHeaderFor_eq_none (keywords : List String)
    (headers : List String) :
    findHeaderFor keywords headers = none ↔
      ∀ h ∈ headers, ∀ kw ∈ keywords, pyIn kw (pyUpper h) = false := by
  rw [findHeaderFor_eq_find?]
  constructor
  · intro hn h hh kw hkw
    have := List.find?_eq_none.mp hn h hh
    rw [Bool.not_eq_true, List.any_eq_false] at this
    exact Bool.eq_false_iff.mpr (this kw hkw)
  · intro hall
    refine List.find?_eq_none.mpr (fun h hh => ?_)
    rw [Bool.not_eq_true, List.any_eq_false]
    exact fun kw hkw => Bool.eq_false_iff.mp (hall h hh kw hkw)

/-! ### Claims C1, C7, C8 -/

/-- C1, counterexample: the claim says keyword-major precedence (first
keyword that matches any header wins). On headers
`["Item Code", "Part No"]` the source's `detect_columns` selects
`"Item Code"` for `part_no` (header-major: `"Item Code"` is scanned
first and matches the later keyword `"ITEM"`), while keyword-major
selection would pick `"Part No"` (the first keyword `"PART"` matches
it). The two disagree, so the claim is false of the code. -/
theorem C1_counterexample_header_major :
    detect_columns ["Item Code", "Part No"] .part_no = some "Item Code" ∧
    keywordMajorFind ["Item Code", "Part No"]
        (mappingKeywords .part_no) = some "Part No" ∧
    detect_columns ["Item Code", "Part No"] .part_no ≠
      keywordMajorFind ["Item Code", "Part No"]
        (mappingKeywords .part_no) := by
  refine ⟨by decide, by decide, by decide⟩

/-- C1, amended: the ColumnMapper selects the header determined by
header-major precedence: headers are scanned in their original
left-to-right order, and the first header whose upper-cased form
contains ANY of the field's candidate keywords is selected (the order
of the keywords is irrelevant to the selection); scanning for that
field then stops immediately. -/
theorem C1_detect_columns_header_major (headers : List String) (f : Field) :
    detect_columns headers f =
      headers.find?
        (fun h => (mappingKeywords f).any (fun kw => pyIn kw (pyUpper h))) :=
  findHeaderFor_eq_find? (mappingKeywords f) headers

/-- C7, counterexample: the claim says matching is case-insensitive
"regardless of the keyword's letter case". The keyword `"NetWt"` of
`net_weight` matches the header `"NetWt"` case-insensitively (both
upcase to `"NETWT"`), yet `detect_columns` resolves `net_weight` to
nothing on headers `["NetWt"]`: the code upper-cases only the header
and uses the keyword literally, so a keyword containing lowercase
letters can never match. -/
theorem C7_counterexample_case_sensitive_keyword :
    detect_columns ["NetWt"] .net_weight = none ∧
    ((mappingKeywords .net_weight).any
        fun kw => pyIn (pyUpper kw) (pyUpper "NetWt")) = true := by
  refine ⟨by decide, by decide⟩

/-- C7, amended: a header matches a keyword exactly when the header's
upper-cased form contains the keyword literally as written (the keyword
is NOT upper-cased, so keywords containing lowercase letters never
match), and the field's resolved mapping is absent exactly when no
keyword, taken literally, is a substring of any upper-cased header. -/
theorem C7_detect_columns_none_iff (headers : List String) (f : Field) :
    detect_columns headers f = none ↔
      ∀ h ∈ headers, ∀ kw ∈ mappingKeywords f,
        pyIn kw (pyUpper h) = false :=
  findHeaderFor_eq_none (mappingKeywords f) headers

/-- C8: every header the ColumnMapping assigns to a canonical field is a
header actually present in the source table's header list (the mapping
value is `none` otherwise); the embedding is a pure function of the
headers, built once, so it is immutable by construction. -/
theorem C8_mapping_value_mem (headers : List String) (f : Field)
    (hd : String) (h : detect_columns headers f = some hd) :
    hd ∈ headers :=
  findHeaderFor_mem (mappingKeywords f) headers hd h

/-- C8, witness: on the header list `["Ship Date", "ASN No"]` the field
`asn_no` resolves to `"ASN No"`, which the theorem places in the list. -/
theorem C8_mapping_value_mem_witness :
    "ASN No" ∈ ["Ship Date", "ASN No"] :=
  C8_mapping_value_mem ["Ship Date", "ASN No"] .asn_no "ASN No" (by decide)

/-! ### Claim C3 -/

/-- C3: the ValueResolver returns the empty string when the mapped
header is null (or the value is missing / NA / empty after trimming)
and blank is allowed; the configured default in those same cases when
blank is not allowed — and never the empty string there, provided the
configured default is itself non-empty; a calendar date is formatted
`DD-MM-YY`; any other value is returned as its trimmed string form. -/
theorem C3_get_value_with_fallback_spec (row : Row) (cn : String)
    (defaultValue : String) (allowBlank : Bool) :
    (get_value_with_fallback row none defaultValue allowBlank
        = if allowBlank then "" else defaultValue) ∧
    (cn ≠ "" → (row cn = none ∨ row cn = some .na) →
        get_value_with_fallback row (some cn) defaultValue allowBlank
          = if allowBlank then "" else defaultValue) ∧
    (∀ s, cn ≠ "" → row cn = some (.text s) → pyStrip s = "" →
        get_value_with_fallback row (some cn) defaultValue allowBlank
          = if allowBlank then "" else defaultValue) ∧
    (∀ d m y, cn ≠ "" → row cn = some (.timestamp d m y) →
        get_value_with_fallback row (some cn) defaultValue allowBlank
          = fmtDDMMYY d m y) ∧
    (∀ s, cn ≠ "" → row cn = some (.text s) → pyStrip s ≠ "" →
        get_value_with_fallback row (some cn) defaultValue allowBlank
          = pyStrip s) ∧
    (allowBlank = false → defaultValue ≠ "" →
        get_value_with_fallback row none defaultValue allowBlank ≠ "") := by
  refine ⟨?_, ?_, ?_, ?_, ?_, ?_⟩
  · rfl
  · rintro hcn (h | h) <;> simp [get_value_with_fallback, hcn, h]
  · intro s hcn hrow hs
    simp [get_value_with_fallback, hcn, hrow, hs]
  · intro d m y hcn hrow
    simp [get_value_with_fallback, hcn, hrow]
  · intro s hcn hrow hs
    simp [get_value_with_fallback, hcn, hrow, hs]
  · intro hb hd
    simpa [get_value_with_fallback, hb] using hd

/-- C3, witness: on `exampleRow`, a trimmed text value resolves to
`"5"`, a date column to `"11-07-24"`, an NA column with blank not
allowed to the default `"480"` (non-empty), and a null mapping with
blank allowed to `""`. -/
theorem C3_get_value_with_fallback_spec_witness :
    get_value_with_fallback exampleRow (some "Qty") "1" false = "5" ∧
    get_value_with_fallback exampleRow (some "Ship Date") "11-07-24" false
      = "11-07-24" ∧
    get_value_with_fallback exampleRow (some "Net Wt") "480" false = "480" ∧
    get_value_with_fallback exampleRow none "" true = "" ∧
    get_value_with_fallback exampleRow none "V12345" false ≠ "" := by
  refine ⟨?_, ?_, ?_, ?_, ?_⟩
  · have h := (C3_get_value_with_fallback_spec exampleRow "Qty" "1"
      false).2.2.2.2.1 " 5 " (by decide) (by decide) (by decide)
    simpa using h
  · have h := (C3_get_value_with_fallback_spec exampleRow "Ship Date"
      "11-07-24" false).2.2.2.1 11 7 2024 (by decide) (by decide)
    simpa using h
  · have h := (C3_get_value_with_fallback_spec exampleRow "Net Wt" "480"
      false).2.1 (by decide) (Or.inr (by decide))
    simpa using h
  · exact (C3_get_value_with_fallback_spec exampleRow "" "" true).1
  · exact (C3_get_value_with_fallback_spec exampleRow "" "V12345"
      false).2.2.2.2.2 rfl (by decide)

/-! ### Injectivity of `Nat.repr` -/

theorem natDigits_lt (n : Nat) : ∀ d ∈ natDigits n, d < 10 := by
  induction n using Nat.strong_induction_on with
  | _ n ih =>
    rw [natDigits]
    by_cases h : n < 10
    · simp [h]
    · simp only [if_neg h, List.mem_append, List.mem_singleton]
      rintro d (hd | rfl)
      · exact ih (n / 10) (Nat.div_lt_self (by omega) (by omega)) d hd
      · exact Nat.mod_lt _ (by omega)

theorem ofDigits_concat (ds : List Nat) (d : Nat) :
    ofDigits (ds ++ [d]) = 10 * ofDigits ds + d := by
  simp [ofDigits, List.foldl_append]

theorem ofDigits_natDigits (n : Nat) : ofDigits (natDigits n) = n := by
  induction n using Nat.strong_induction_on with
  | _ n ih =>
    rw [natDigits]
    by_cases h : n < 10
    · simp [h, ofDigits]
    · rw [if_neg h, ofDigits_concat,
        ih (n / 10) (Nat.div_lt_self (by omega) (by omega))]
      omega

theorem natDigits_injective {m n : Nat} (h : natDigits m = natDigits n) :
    m = n := by
  have := congrArg ofDigits h
  rwa [ofDigits_natDigits, ofDigits_natDigits] at this

theorem digitChar_inj_lt : ∀ a b : Fin 10,
    Nat.digitChar a = Nat.digitChar b → a = b := by decide

theorem map_digitChar_inj : ∀ ds1 ds2 : List Nat,
    (∀ d ∈ ds1, d < 10) → (∀ d ∈ ds2, d < 10) →
    ds1.map Nat.digitChar = ds2.map Nat.digitChar → ds1 = ds2
  | [], [], _, _, _ => rfl
  | [], _ :: _, _, _, h => by simp at h
  | _ :: _, [], _, _, h => by simp at h
  | d1 :: t1, d2 :: t2, h1, h2, h => by
    simp only [List.map_cons, List.cons.injEq] at h
    have hd := digitChar_inj_lt ⟨d1, h1 d1 (by simp)⟩ ⟨d2, h2 d2 (by simp)⟩ h.1
    have ht := map_digitChar_inj t1 t2
      (fun d hd => h1 d (by simp [hd])) (fun d hd => h2 d (by simp [hd])) h.2
    simp only [Fin.mk.injEq] at hd
    rw [hd, ht]

theorem toDigitsCore_eq (fuel n : Nat) (ds : List Char)
    (h : n < 10 ^ (fuel + 1)) :
    Nat.toDigitsCore 10 (fuel + 1) n ds
      = (natDigits n).map Nat.digitChar ++ ds := by
  induction fuel generalizing n ds with
  | zero =>
    have hn : n < 10 := by simpa using h
    have h10 : n / 10 = 0 := Nat.div_eq_of_lt hn
    simp [Nat.toDigitsCore, h10, natDigits, hn, Nat.mod_eq_of_lt hn]
  | succ fuel ih =>
    by_cases h10 : n / 10 = 0
    · have hn : n < 10 := by omega
      simp [Nat.toDigitsCore, h10, natDigits, hn, Nat.mod_eq_of_lt hn]
    · have hn : ¬ n < 10 := by omega
      have hrec : n / 10 < 10 ^ (fuel + 1) := by
        rw [Nat.div_lt_iff_lt_mul (by omega)]
        calc n < 10 ^ (fuel + 2) := h
        _ = 10 ^ (fuel + 1) * 10 := by ring
      rw [show Nat.toDigitsCore 10 (fuel + 1 + 1) n ds
            = Nat.toDigitsCore 10 (fuel + 1) (n / 10)
                (Nat.digitChar (n % 10) :: ds) by
          simp [Nat.toDigitsCore, h10]]
      rw [ih (n / 10) _ hrec]
      conv_rhs => rw [natDigits, if_neg hn]
      simp

theorem natRepr_eq (n : Nat) :
    Nat.repr n = ⟨(natDigits n).map Nat.digitChar⟩ := by
  have hn : n < 10 ^ (n + 1) := by
    calc n < 10 ^ n := Nat.lt_pow_self (by omega) n
    _ ≤ 10 ^ (n + 1) := Nat.pow_le_pow_right (by omega) (Nat.le_succ n)
  rw [Nat.repr, Nat.toDigits, toDigitsCore_eq n n [] hn]
  simp [List.asString]

theorem natRepr_injective {m n : Nat} (h : Nat.repr m = Nat.repr n) :
    m = n := by
  rw [natRepr_eq, natRepr_eq] at h
  have := congrArg String.data h
  simp only at this
  exact natDigits_injective
    (map_digitChar_inj _ _ (natDigits_lt m) (natDigits_lt n) this)

theorem stringAppendCancelLeft (p a b : String) (h : p ++ a = p ++ b) :
    a = b := by
  have hd := congrArg String.data h
  simp only [String.data_append] at hd
  exact String.ext (List.append_cancel_left hd)

/-! ### Claim C10 -/

theorem resolveRowValues_part_no_default (cmap : Field → Option String)
    (i : Nat) (row : Row) (h : PartNoMissing cmap row) :
    (resolveRowValues cmap i row).part_no = "PART" ++ toString (i + 1) := by
  rcases h with h | ⟨cn, hcn, hmiss⟩
  · simp [resolveRowValues, get_value_with_fallback, h]
  · rcases hmiss with rfl | h | h
    · simp [resolveRowValues, get_value_with_fallback, hcn]
    · simp [resolveRowValues, get_value_with_fallback, hcn, h]
    · simp [resolveRowValues, get_value_with_fallback, hcn, h]

/-- C10: whenever the part-number field is unmapped or the row carries
no usable value for it, the resolved part number is `"PART"` followed
by the row index plus one; two distinct default-filled rows therefore
receive distinct part numbers, while the resolution of every other
field is independent of the row index. -/
theorem C10_default_part_no_indexed (cmap : Field → Option String)
    (i j : Nat) (rowi rowj : Row)
    (hi : PartNoMissing cmap rowi) (hj : PartNoMissing cmap rowj)
    (hij : i ≠ j) :
    (resolveRowValues cmap i rowi).part_no = "PART" ++ toString (i + 1) ∧
    (resolveRowValues cmap j rowj).part_no = "PART" ++ toString (j + 1) ∧
    (resolveRowValues cmap i rowi).part_no ≠
      (resolveRowValues cmap j rowj).part_no ∧
    (∀ k l : Nat, ∀ r : Row,
      (resolveRowValues cmap k r).document_date
        = (resolveRowValues cmap l r).document_date ∧
      (resolveRowValues cmap k r).asn_no
        = (resolveRowValues cmap l r).asn_no ∧
      (resolveRowValues cmap k r).description
        = (resolveRowValues cmap l r).description ∧
      (resolveRowValues cmap k r).quantity
        = (resolveRowValues cmap l r).quantity ∧
      (resolveRowValues cmap k r).net_weight
        = (resolveRowValues cmap l r).net_weight ∧
      (resolveRowValues cmap k r).gross_weight
        = (resolveRowValues cmap l r).gross_weight ∧
      (resolveRowValues cmap k r).shipper_id
        = (resolveRowValues cmap l r).shipper_id ∧
      (resolveRowValues cmap k r).shipper_name
        = (resolveRowValues cmap l r).shipper_name) := by
  refine ⟨resolveRowValues_part_no_default cmap i rowi hi,
    resolveRowValues_part_no_default cmap j rowj hj, ?_,
    fun k l r => ⟨rfl, rfl, rfl, rfl, rfl, rfl, rfl, rfl⟩⟩
  rw [resolveRowValues_part_no_default cmap i rowi hi,
    resolveRowValues_part_no_default cmap j rowj hj]
  intro hcontra
  exact hij (by
    have := stringAppendCancelLeft "PART" _ _ hcontra
    have := natRepr_injective this
    omega)

/-- C10, witness: with no columns mapped, rows 0 and 1 resolve the part
number to the index-dependent defaults, and the two differ. -/
theorem C10_default_part_no_indexed_witness :
    (resolveRowValues (fun _ => none) 0 exampleRow).part_no
      = "PART" ++ toString (0 + 1) ∧
    (resolveRowValues (fun _ => none) 1 exampleRow).part_no
      = "PART" ++ toString (1 + 1) ∧
    (resolveRowValues (fun _ => none) 0 exampleRow).part_no ≠
      (resolveRowValues (fun _ => none) 1 exampleRow).part_no := by
  have h := C10_default_part_no_indexed (fun _ => none) 0 1
    exampleRow exampleRow (Or.inl rfl) (Or.inl rfl) (by omega)
  exact ⟨h.1, h.2.1, h.2.2.1⟩

/-! ### Claim C2 -/

/-- C2: the claim says a non-empty value whose barcode ENCODING fails is
drawn as literal text, never leaving the area blank.  The code does the
opposite: when `generate_barcode_image` fails (returns `None`), the
`else: pass` of `draw_barcode` emits no drawing operation at all; the
literal-text fallback is reached only when the image was generated and
`canvas.drawImage` itself fails. -/
theorem C2_encode_failure_leaves_blank (encodeOk drawOk : String → Bool)
    (data : String) (x y w h : Rat) (hne : pyStrip data ≠ "") :
    (encodeOk data = false →
      draw_barcode encodeOk drawOk data x y w h = []) ∧
    (encodeOk data = true → drawOk data = false →
      draw_barcode encodeOk drawOk data x y w h
        = [.textCentered data x (y + h / 2) w]) := by
  have hne' : data ≠ "" := by
    intro hd
    exact hne (by simp [hd, pyStrip])
  constructor
  · intro henc
    simp [draw_barcode, generate_barcode_image, hne, hne', henc]
  · intro henc hdraw
    simp [draw_barcode, generate_barcode_image, hne, hne', henc, hdraw]

/-- C2, witness: for the non-blank value `"P100"`, an encoding failure
produces no operations (the area is left blank), while an image-drawing
failure after successful encoding produces the centered-text fallback. -/
theorem C2_encode_failure_leaves_blank_witness :
    draw_barcode (fun _ => false) (fun _ => true) "P100" 0 0 1 1 = [] ∧
    draw_barcode (fun _ => true) (fun _ => false) "P100" 0 0 1 1
      = [.textCentered "P100" 0 (0 + 1 / 2) 1] := by
  refine ⟨(C2_encode_failure_leaves_blank (fun _ => false) (fun _ => true)
      "P100" 0 0 1 1 (by decide)).1 rfl, ?_⟩
  exact (C2_encode_failure_leaves_blank (fun _ => true) (fun _ => false)
      "P100" 0 0 1 1 (by decide)).2 rfl rfl

/-! ### Claim C4 -/

/-- C4: a description longer than 25 characters is rendered as its
first 22 characters plus the three-character ellipsis marker (25
characters in total) and one of exactly 25 characters is unmodified; a
shipper name longer than 15 characters is rendered as its first 12
characters plus the marker (15 in total) and one of at most 15 is
unmodified; the description row and the shipper row of the page trace
carry exactly these truncated strings. -/
theorem C4_truncation (description shipper_name : String) :
    (description.length > 25 →
      truncateDescription description = pySlice description 22 ++ "..." ∧
      (truncateDescription description).length = 25) ∧
    (description.length = 25 →
      truncateDescription description = description) ∧
    (shipper_name.length > 15 →
      truncateShipperName shipper_name = pySlice shipper_name 12 ++ "..." ∧
      (truncateShipperName shipper_name).length = 15) ∧
    (shipper_name.length ≤ 15 →
      truncateShipperName shipper_name = shipper_name) ∧
    (∀ y : Rat, DrawOp.stringAt (truncateDescription description)
        (0.5 * cm + 2.5 * cm + 0.2 * cm) (y + 1.0 * cm / 2 - 0.15 * cm)
      ∈ descRowOps description y) ∧
    (∀ shipper_id : String, ∀ y : Rat,
      DrawOp.textCentered (truncateShipperName shipper_name)
        (0.5 * cm + 2.5 * cm + 2.5 * cm) (y + 1.0 * cm / 2 - 0.15 * cm)
        (4.2 * cm)
      ∈ shipperRowOps shipper_id shipper_name y) := by
  refine ⟨?_, ?_, ?_, ?_, ?_, ?_⟩
  · intro hlen
    constructor
    · simp [truncateDescription, hlen]
    · simp only [truncateDescription, if_pos hlen]
      have : (pySlice description 22).length = 22 := by
        simp only [pySlice, String.length]
        rw [List.length_take]
        have : 25 < description.data.length := hlen
        omega
      rw [String.length_append, this]
      rfl
  · intro hlen
    simp [truncateDescription, hlen]
  · intro hlen
    constructor
    · simp [truncateShipperName, hlen]
    · simp only [truncateShipperName, if_pos hlen]
      have : (pySlice shipper_name 12).length = 12 := by
        simp only [pySlice, String.length]
        rw [List.length_take]
        have : 15 < shipper_name.data.length := hlen
        omega
      rw [String.length_append, this]
      rfl
  · intro hlen
    simp [truncateShipperName]
    omega
  · intro y
    simp [descRowOps]
  · intro shipper_id y
    simp [shipperRowOps]

/-- C4, witness: the 30-character description of the spec's scenario is
rendered as its first 22 characters plus `"..."` (length 25), a
25-character description and a 15-character shipper name pass through
unmodified, and a 32-character shipper name is truncated to 12 plus the
marker. -/
theorem C4_truncation_witness :
    truncateDescription "Long description text exceeding limit"
      = pySlice "Long description text exceeding limit" 22 ++ "..." ∧
    (truncateDescription "Long description text exceeding limit").length
      = 25 ∧
    truncateDescription "1234567890123456789012345"
      = "1234567890123456789012345" ∧
    truncateShipperName "A Very Long Shipper Company Name"
      = pySlice "A Very Long Shipper Company Name" 12 ++ "..." ∧
    truncateShipperName "Acme Shipping"
      = "Acme Shipping" := by
  have h1 := (C4_truncation "Long description text exceeding limit"
    "A Very Long Shipper Company Name").1 (by decide)
  have h2 := (C4_truncation "1234567890123456789012345" "x").2.1 (by decide)
  have h3 := (C4_truncation "x" "A Very Long Shipper Company Name").2.2.1
    (by decide)
  have h4 := (C4_truncation "x" "Acme Shipping").2.2.2.1 (by decide)
  exact ⟨h1.1, h1.2, h2, h3.1, h4⟩

/-! ### Claim C6 -/

/-- C6: for a blank ASN value (empty or whitespace only), the ASN row
of the page consists of exactly its three outlined rectangles, the bold
font selection, the `"ASN No"` label text and the font restore — no
value text and no barcode operation — and the full page trace is the
same as for the empty ASN, every other cell unchanged. -/
theorem C6_blank_asn_row (encodeOk drawOk : String → Bool)
    (document_date asn_no part_no description quantity net_weight
     gross_weight shipper_id shipper_name : String)
    (page_width page_height y : Rat)
    (h : pyStrip asn_no = "") :
    asnRowOps encodeOk drawOk asn_no y =
      [.rect (0.5 * cm) y (2.5 * cm) (1.0 * cm),
       .rect (0.5 * cm + 2.5 * cm) y (3.0 * cm) (1.0 * cm),
       .rect (0.5 * cm + 2.5 * cm + 3.0 * cm) y (3.7 * cm) (1.0 * cm),
       .setFont "Helvetica-Bold" 11,
       .textCentered "ASN No" (0.5 * cm) (y + 1.0 * cm / 2 - 0.15 * cm)
         (2.5 * cm),
       .setFont "Helvetica" 11] ∧
    create_single_label encodeOk drawOk document_date asn_no part_no
        description quantity net_weight gross_weight shipper_id
        shipper_name page_width page_height =
      create_single_label encodeOk drawOk document_date "" part_no
        description quantity net_weight gross_weight shipper_id
        shipper_name page_width page_height := by
  have hcond : ¬(asn_no ≠ "" ∧ pyStrip asn_no ≠ "") := by simp [h]
  constructor
  · simp [asnRowOps, hcond]
  · simp [create_single_label, asnRowOps, hcond]

/-- C6, witness: the all-whitespace ASN `"  "` yields exactly the
label-and-rectangles row and the page trace of the empty ASN. -/
theorem C6_blank_asn_row_witness :
    asnRowOps (fun _ => true) (fun _ => true) "  " 0 =
      [.rect (0.5 * cm) 0 (2.5 * cm) (1.0 * cm),
       .rect (0.5 * cm + 2.5 * cm) 0 (3.0 * cm) (1.0 * cm),
       .rect (0.5 * cm + 2.5 * cm + 3.0 * cm) 0 (3.7 * cm) (1.0 * cm),
       .setFont "Helvetica-Bold" 11,
       .textCentered "ASN No" (0.5 * cm) (0 + 1.0 * cm / 2 - 0.15 * cm)
         (2.5 * cm),
       .setFont "Helvetica" 11] ∧
    create_single_label (fun _ => true) (fun _ => true) "11-07-24" "  "
        "P100" "Desc" "5" "480" "500" "V1" "Acme" (10 * cm) (15 * cm) =
      create_single_label (fun _ => true) (fun _ => true) "11-07-24" ""
        "P100" "Desc" "5" "480" "500" "V1" "Acme" (10 * cm) (15 * cm) :=
  C6_blank_asn_row (fun _ => true) (fun _ => true) "11-07-24" "  " "P100"
    "Desc" "5" "480" "500" "V1" "Acme" (10 * cm) (15 * cm) 0 (by decide)

/-! ### Claim C5 -/

theorem pageOpsFor_ne_nil (encodeOk drawOk : String → Bool)
    (cmap : Field → Option String) (index : Nat) (row : Row)
    (page_width page_height : Rat) :
    pageOpsFor encodeOk drawOk cmap index row page_width page_height
      ≠ [] := by
  simp [pageOpsFor, create_single_label, row1Ops]

theorem labelLoop_from (encodeOk drawOk : String → Bool)
    (cmap : Field → Option String) (pw ph : Rat) :
    ∀ (rows : List Row) (k : Nat) (ps : List Page) (cur : Page),
      cur ≠ [] →
      saveCanvas ((List.enumFrom (k + 1) rows).foldl
          (labelStep encodeOk drawOk cmap pw ph) ⟨ps, cur⟩)
        = (ps ++ [cur]) ++
          (List.enumFrom (k + 1) rows).map
            (fun x => pageOpsFor encodeOk drawOk cmap x.1 x.2 pw ph)
  | [], k, ps, cur, hcur => by
      simp [saveCanvas, hcur]
  | r :: rows, k, ps, cur, hcur => by
      rw [List.enumFrom_cons]
      simp only [List.foldl_cons]
      rw [show labelStep encodeOk drawOk cmap pw ph ⟨ps, cur⟩ (k + 1, r)
            = ⟨ps ++ [cur],
               pageOpsFor encodeOk drawOk cmap (k + 1) r pw ph⟩ by
          simp [labelStep, showPage, drawOnCanvas]]
      rw [labelLoop_from encodeOk drawOk cmap pw ph rows (k + 1)
        (ps ++ [cur]) _ (pageOpsFor_ne_nil encodeOk drawOk cmap (k + 1)
          r pw ph)]
      simp

/-- C5: the assembled document is exactly one page per input row, in
input order — page `i` is the label drawn from row `i` (row 0 on the
fresh first page, every later row after a page break) — so the page
count equals the row count, whatever the rows contain. -/
theorem C5_one_page_per_row (encodeOk drawOk : String → Bool)
    (cmap : Field → Option String) (rows : List Row) :
    create_label_pdf encodeOk drawOk cmap rows
      = rows.enum.map
          (fun x => pageOpsFor encodeOk drawOk cmap x.1 x.2
            (10 * cm) (15 * cm)) ∧
    (create_label_pdf encodeOk drawOk cmap rows).length = rows.length := by
  have hmain : create_label_pdf encodeOk drawOk cmap rows
      = rows.enum.map
          (fun x => pageOpsFor encodeOk drawOk cmap x.1 x.2
            (10 * cm) (15 * cm)) := by
    cases rows with
    | nil => rfl
    | cons r rows =>
        show saveCanvas ((List.enum (r :: rows)).foldl
            (labelStep encodeOk drawOk cmap (10 * cm) (15 * cm)) ⟨[], []⟩)
          = _
        rw [List.enum_cons]
        simp only [List.foldl_cons]
        rw [show labelStep encodeOk drawOk cmap (10 * cm) (15 * cm)
              ⟨[], []⟩ (0, r)
              = ⟨[], pageOpsFor encodeOk drawOk cmap 0 r
                  (10 * cm) (15 * cm)⟩ by
            simp [labelStep, drawOnCanvas]]
        rw [labelLoop_from encodeOk drawOk cmap (10 * cm) (15 * cm) rows 0
          [] _ (pageOpsFor_ne_nil encodeOk drawOk cmap 0 r
            (10 * cm) (15 * cm))]
        simp
  refine ⟨hmain, ?_⟩
  rw [hmain, List.length_map, List.enum_length]

/-! ### Claim C9 -/

theorem code128Widths_length : code128Widths.length = 107 := by decide

theorem code128Widths_wellFormed :
    (code128Widths.all fun p => p.length == 6) = true := by decide

theorem symVal_lookup :
    ((List.range 107).all fun v => symVal (symPat v) == some v) = true := by
  decide

theorem symPat_length (v : Nat) (hv : v < 107) : (symPat v).length = 6 := by
  have hv' : v < code128Widths.length := by rw [code128Widths_length]; exact hv
  have hmem : symPat v ∈ code128Widths := by
    rw [symPat, List.getD_eq_getElem _ _ hv']
    exact List.getElem_mem _
  have h := List.all_eq_true.mp code128Widths_wellFormed _ hmem
  exact eq_of_beq h

theorem symVal_symPat (v : Nat) (hv : v < 107) :
    symVal (symPat v) = some v := by
  have hmem : v ∈ List.range 107 := List.mem_range.mpr hv
  have h := List.all_eq_true.mp symVal_lookup v hmem
  exact eq_of_beq h

theorem flatten_map_symPat_length (vs : List Nat) (h : ∀ v ∈ vs, v < 107) :
    ((vs.map symPat).flatten).length = 6 * vs.length := by
  induction vs with
  | nil => simp
  | cons v vs ih =>
      simp only [List.map_cons, List.flatten_cons, List.length_append,
        List.length_cons]
      rw [symPat_length v (h v (by simp)), ih (fun w hw => h w (by simp [hw]))]
      ring

theorem parseSyms_encode : ∀ (vs : List Nat) (fuel : Nat),
    (∀ v ∈ vs, v < 107) → 6 * vs.length + 7 ≤ fuel →
    parseSyms fuel ((vs.map symPat).flatten ++ code128StopPat) = some vs
  | [], fuel, _, hfuel => by
      obtain ⟨f, rfl⟩ : ∃ f, fuel = f + 1 := by
        cases fuel with
        | zero => omega
        | succ f => exact ⟨f, rfl⟩
      simp [parseSyms]
  | v :: vs, fuel, hbound, hfuel => by
      obtain ⟨f, rfl⟩ : ∃ f, fuel = f + 1 := by
        cases fuel with
        | zero => omega
        | succ f => exact ⟨f, rfl⟩
      have hv : v < 107 := hbound v (by simp)
      have hvs : ∀ w ∈ vs, w < 107 := fun w hw => hbound w (by simp [hw])
      have hlen : (symPat v).length = 6 := symPat_length v hv
      have hsplit : ((v :: vs).map symPat).flatten ++ code128StopPat
          = symPat v ++ ((vs.map symPat).flatten ++ code128StopPat) := by
        simp [List.append_assoc]
      have hne : ((v :: vs).map symPat).flatten ++ code128StopPat
          ≠ code128StopPat := by
        intro hcontra
        have hlen2 := congrArg List.length hcontra
        simp only [List.length_append,
          flatten_map_symPat_length (v :: vs) hbound] at hlen2
        simp only [code128StopPat, List.length_cons,
          List.length_nil] at hlen2
        omega
      have hfuel' : 6 * vs.length + 7 ≤ f := by
        simp only [List.length_cons] at hfuel
        omega
      have hrec := parseSyms_encode vs f hvs hfuel'
      rw [parseSyms, if_neg hne, hsplit]
      rw [List.take_left' hlen, List.drop_left' hlen,
        symVal_symPat v hv, hrec]

theorem valToChar_charToVal (c : Char) (h32 : 32 ≤ c.toNat) :
    valToChar (charToVal c) = c := by
  simp only [valToChar, charToVal]
  rw [Nat.sub_add_cancel h32]
  exact Char.ofNat_toNat c

theorem decodeVals_concat (vals : List Nat) :
    decodeVals (vals ++ [code128Checksum vals])
      = some (String.mk (vals.map valToChar)) := by
  unfold decodeVals
  rw [List.getLast?_concat, List.dropLast_concat]
  simp

/-- C9: for every input string within the symbology's supported
character set (printable ASCII, the Code128 code-B characters),
decoding the module-width sequence produced by the encoder with a
standard Code128 decoder yields back exactly the original string. -/
theorem C9_code128_roundtrip (s : String)
    (hs : ∀ c ∈ s.data, 32 ≤ c.toNat ∧ c.toNat ≤ 126) :
    decode128 (encode128 s) = some s := by
  have hvals : ∀ v ∈ s.data.map charToVal, v < 107 := by
    intro v hv
    obtain ⟨c, hc, rfl⟩ := List.mem_map.mp hv
    have h126 := (hs c hc).2
    simp only [charToVal]
    omega
  have hfull : ∀ v ∈ s.data.map charToVal
      ++ [code128Checksum (s.data.map charToVal)], v < 107 := by
    intro v hv
    rcases List.mem_append.mp hv with h | h
    · exact hvals v h
    · have hlt : code128Checksum (s.data.map charToVal) < 103 :=
        Nat.mod_lt _ (by omega)
      simp at h
      omega
  have henc : encode128 s
      = symPat 104 ++
        (((s.data.map charToVal
            ++ [code128Checksum (s.data.map charToVal)]).map symPat).flatten
          ++ code128StopPat) := by
    simp [encode128, List.append_assoc]
  have hlen104 : (symPat 104).length = 6 := symPat_length 104 (by omega)
  have hfuel : 6 * (s.data.map charToVal
        ++ [code128Checksum (s.data.map charToVal)]).length + 7
      ≤ (encode128 s).length := by
    rw [henc]
    simp only [List.length_append, hlen104,
      flatten_map_symPat_length _ hfull]
    simp [code128StopPat]
  rw [decode128, henc, List.take_left' hlen104, if_pos rfl,
    List.drop_left' hlen104]
  rw [← henc, parseSyms_encode _ _ hfull hfuel]
  show decodeVals _ = some s
  rw [decodeVals_concat]
  have hmap : (s.data.map charToVal).map valToChar = s.data := by
    rw [List.map_map]
    have hcongr : ∀ c ∈ s.data, (valToChar ∘ charToVal) c = id c := by
      intro c hc
      simp only [Function.comp_apply, id_eq]
      exact valToChar_charToVal c (hs c hc).1
    rw [List.map_congr_left hcongr, List.map_id]
  rw [hmap]

/-- C9, witness: the spec scenario's part number `"P100"` round-trips
through the barcode symbology. -/
theorem C9_code128_roundtrip_witness :
    decode128 (encode128 "P100") = some "P100" :=
  C9_code128_roundtrip "P100" (by decide)

end Supply
